import Mathlib

/-!
Verification of the appointment-scheduling core of the
Hospital-appointment-scheduler repository (DayView.tsx, WeekView.tsx,
ScheduleView.tsx and the useAppointments hook).

Timestamps are embedded as `Int` minutes since the local epoch
1970-01-01 00:00 (a Thursday); a calendar day is 1440 minutes.
-/

namespace Scheduler

/-- Calendar day length in minutes. -/
def minutesPerDay : Int := 1440

/-- `startOfDay t` models date-fns `startOfDay` / JS `setHours(h,m,0,0)`'s
truncation of a timestamp to local midnight of its calendar day. -/
def startOfDay (t : Int) : Int := t - t % minutesPerDay

/-- Appointment record, from `@/types` as used by DayView/WeekView.
The `type` enum is embedded as a plain string; times are minutes. -/
structure Appointment where
  id : String
  patientId : String
  doctorId : String
  type : String
  startTime : Int
  endTime : Int
deriving DecidableEq

/-- Time slot record, from `@/types` as used by DayView/WeekView. -/
structure TimeSlot where
  start : Int
  «end» : Int
  label : String
deriving DecidableEq

/-- Calendar configuration, from `@/types`. -/
structure CalendarConfig where
  startHour : Int
  endHour : Int
  slotDuration : Int
deriving DecidableEq

/-- Modelled from the spec: `DEFAULT_CALENDAR_CONFIG` lives in `@/types`,
which is not part of the provided sources; the spec fixes the daily window
as 08:00-18:00 in 30-minute steps. -/
def DEFAULT_CALENDAR_CONFIG : CalendarConfig :=
  { startHour := 8, endHour := 18, slotDuration := 30 }

/-- DayView.tsx lines 66-73, `getAppointmentsForSlot`:
`appointments.filter(apt => isBefore(aptStart, slot.end) && isAfter(aptEnd, slot.start))`. -/
def getAppointmentsForSlot (appointments : List Appointment) (slot : TimeSlot) :
    List Appointment :=
  appointments.filter fun apt =>
    decide (apt.startTime < slot.«end») && decide (slot.start < apt.endTime)

/-- WeekView.tsx lines 66-68, `isSameCalendarDay`:
`startOfDay(a).getTime() === startOfDay(b).getTime()`. -/
def isSameCalendarDay (a b : Int) : Bool :=
  decide (startOfDay a = startOfDay b)

/-- WeekView.tsx lines 74-82, `getAppointmentsForDayAndSlot`:
`slotEnd = slotStart + DEFAULT_CALENDAR_CONFIG.slotDuration`, then
`appointments.filter(apt => isSameCalendarDay(aptStart, date) &&
isBefore(aptStart, slotEnd) && isAfter(aptEnd, slotStart))`. -/
def getAppointmentsForDayAndSlot (appointments : List Appointment)
    (date slotStart : Int) : List Appointment :=
  let slotEnd := slotStart + DEFAULT_CALENDAR_CONFIG.slotDuration
  appointments.filter fun apt =>
    isSameCalendarDay apt.startTime date &&
      decide (apt.startTime < slotEnd) && decide (slotStart < apt.endTime)

/-- WeekView.tsx line 49, `weekDays`: the 7 column dates
`addDays(weekStartDate, i)` for `i = 0..6`. -/
def weekDays (weekStartDate : Int) : List Int :=
  (List.range 7).map fun i : Nat => weekStartDate + minutesPerDay * (i : Int)

/-- WeekView.tsx lines 116-124: the grid cell rendered for day column `day`
and slot row `slot` is `getAppointmentsForDayAndSlot(day, slot.start)`. -/
def weekCell (appointments : List Appointment) (day : Int) (slot : TimeSlot) :
    List Appointment :=
  getAppointmentsForDayAndSlot appointments day slot.start

/-- DayView.tsx line 54 / WeekView.tsx line 55, the inner minute loop
`for (let minute = 0; minute < 60; minute += slotDuration)`, returning the
visited minute values. For non-positive `dur` the source loop never exits;
this total function is a faithful embedding only under the guard
`0 < dur` (the divergent case is captured by `minutesLoopFuel`, cf. C8). -/
def minutesLoop (dur m : Int) : List Int :=
  if h : 0 < dur ∧ m < 60 then m :: minutesLoop dur (m + dur) else []
termination_by (60 - m).toNat
decreasing_by omega

/-- Fuel-indexed embedding of the same minute loop: `none` means the loop has
not terminated within `fuel` iterations. -/
def minutesLoopFuel (dur : Int) (fuel : Nat) (m : Int) : Option (List Int) :=
  match fuel with
  | 0 => none
  | fuel + 1 =>
    if m < 60 then (minutesLoopFuel dur fuel (m + dur)).map (fun l => m :: l)
    else some []

/-- DayView.tsx line 53 / WeekView.tsx line 54, the outer hour loop header
`for (let hour = startHour; hour < endHour; hour++)`: the visited hours. -/
def hourRange (startHour endHour : Int) : List Int :=
  (List.range (endHour - startHour).toNat).map fun i : Nat => startHour + (i : Int)

/-- Two-digit zero padding used by date-fns `format(start, 'HH:mm')`. -/
def pad2 (n : Int) : String :=
  if n < 10 then "0" ++ toString n else toString n

/-- date-fns `format(t, 'HH:mm')`: wall-clock hours and minutes of `t`. -/
def formatHHMM (t : Int) : String :=
  pad2 ((t % minutesPerDay) / 60) ++ ":" ++ pad2 (t % 60)

/-- DayView.tsx lines 55-59 / WeekView.tsx lines 56-60, one slot of the grid:
`start.setHours(hour, minute, 0, 0)` places `start` at `hour:minute` of the
anchor's calendar day (JS normalizes overflowing fields arithmetically), and
`end = start + slotDuration` minutes. -/
def mkSlot (date hour m dur : Int) : TimeSlot :=
  { start := startOfDay date + hour * 60 + m
    «end» := startOfDay date + hour * 60 + m + dur
    label := formatHHMM (startOfDay date + hour * 60 + m) }

/-- DayView.tsx lines 50-63 / WeekView.tsx lines 51-64, `timeSlots`: the
nested hour/minute loops pushing one slot per visited (hour, minute). The
source reads `DEFAULT_CALENDAR_CONFIG`; the config is a parameter here, as
in the spec's SlotGrid Generator contract. `date` is the anchor date
(`weekStartDate` in WeekView). -/
def timeSlots (cfg : CalendarConfig) (date : Int) : List TimeSlot :=
  (hourRange cfg.startHour cfg.endHour).flatMap fun hour =>
    (minutesLoop cfg.slotDuration 0).map fun minute =>
      mkSlot date hour minute cfg.slotDuration

/-- Fuel-indexed hour loop over an explicit list of hours, each iteration
running the fuel-indexed minute loop; `none` propagates a minute loop that
did not terminate within `fuel` iterations. -/
def hoursLoopFuel (cfg : CalendarConfig) (date : Int) (fuel : Nat) :
    List Int → Option (List TimeSlot)
  | [] => some []
  | hour :: rest =>
    match minutesLoopFuel cfg.slotDuration fuel 0 with
    | none => none
    | some ms =>
      (hoursLoopFuel cfg date fuel rest).map
        (fun acc => (ms.map fun m => mkSlot date hour m cfg.slotDuration) ++ acc)

/-- Fuel-indexed version of `timeSlots`: `none` when the source's minute loop
does not terminate within `fuel` iterations for some visited hour. -/
def timeSlotsFuel (cfg : CalendarConfig) (date : Int) (fuel : Nat) :
    Option (List TimeSlot) :=
  hoursLoopFuel cfg date fuel (hourRange cfg.startHour cfg.endHour)

/-- State exposed by the `useAppointments` hook (WeekView.tsx source part,
lines 222-224): appointment list, loading flag, error field. A JS `Error`
value is embedded as its message string. -/
structure HookState where
  appointments : List Appointment
  loading : Bool
  error : Option String
deriving DecidableEq

/-- useAppointments effect, line 243: `data.sort((a, b) => startTime(a) -
startTime(b))`. JS `Array.prototype.sort` is a stable comparison sort
(ES2019), embedded as a stable merge sort on the start-time key. -/
def sortAppointments (data : List Appointment) : List Appointment :=
  data.mergeSort fun a b => decide (a.startTime ≤ b.startTime)

/-- The `useEffect` body of `useAppointments` (WeekView.tsx source part,
lines 232-250), run for one completed query: `setLoading(true);
setError(null); try { data = …; data.sort(…); setAppointments(data) }
catch (e) { setError(e) } finally { setLoading(false) }`. `fetched` is the
outcome of the service read (`Except.error` = the read threw). -/
def runQueryEffect (fetched : Except String (List Appointment))
    (st : HookState) : HookState :=
  let st1 : HookState := { st with loading := true }
  let st2 : HookState := { st1 with error := none }
  match fetched with
  | Except.ok data =>
    { st2 with appointments := sortAppointments data, loading := false }
  | Except.error e =>
    { st2 with error := some e, loading := false }

/-- The hook's observed selection: `doctorId`, `date`, and the optional
week range `startDate`/`endDate` (UseAppointmentsParams). -/
structure Selection where
  doctorId : String
  date : Int
  startDate : Option Int
  endDate : Option Int
deriving DecidableEq

/-- The query dispatch inside the effect (lines 236-241): the range query
when both `startDate` and `endDate` are present, else the single-date
query. The service reads are parameters (the mock store is outside this
core); a throwing read is an `Except.error`. -/
def selectQuery (byDate : String → Int → Except String (List Appointment))
    (byRange : String → Int → Int → Except String (List Appointment))
    (sel : Selection) : Except String (List Appointment) :=
  match sel.startDate, sel.endDate with
  | some s, some e => byRange sel.doctorId s e
  | _, _ => byDate sel.doctorId sel.date

/-- One selection change: the effect re-runs synchronously with the new
selection's query result. -/
def applySelection (byDate : String → Int → Except String (List Appointment))
    (byRange : String → Int → Int → Except String (List Appointment))
    (st : HookState) (sel : Selection) : HookState :=
  runQueryEffect (selectQuery byDate byRange sel) st

/-- A sequence of selection changes processed in order: each effect (and its
query) runs to completion before the next selection is set — the hook's
queries are synchronous, so no two queries are ever in flight together. -/
def runSelections (byDate : String → Int → Except String (List Appointment))
    (byRange : String → Int → Int → Except String (List Appointment))
    (st : HookState) (sels : List Selection) : HookState :=
  sels.foldl (applySelection byDate byRange) st

/-- JS `Date.prototype.getDay` on a local day number (days since
1970-01-01, which was a Thursday): 0 = Sunday, …, 6 = Saturday. -/
def jsDayOfWeek (d : Int) : Int := (d + 4) % 7

/-- date-fns `startOfWeek(d, { weekStartsOn: 1 })` as called in
ScheduleView.tsx line 55, on day numbers: step back
`(getDay(d) - 1 + 7) % 7` days to the Monday of `d`'s week. -/
def startOfWeekMon (d : Int) : Int := d - (jsDayOfWeek d + 6) % 7

/-- ScheduleView.tsx lines 55-61: the week-mode query window
`[weekStart, addDays(weekStart, 6)]` derived from the anchor date. -/
def weekWindow (d : Int) : Int × Int := (startOfWeekMon d, startOfWeekMon d + 6)

/-- Gregorian calendar date → day number (days since 1970-01-01), the
standard civil-to-days conversion implemented by JS `Date`; used only to
state concrete calendar scenarios such as 2024-01-03. -/
def daysFromCivil (y m d : Int) : Int :=
  let yAdj := if m ≤ 2 then y - 1 else y
  let era := yAdj / 400
  let yoe := yAdj - era * 400
  let doy := (153 * (m + (if 2 < m then -3 else 9)) + 2) / 5 + d - 1
  let doe := yoe * 365 + yoe / 4 - yoe / 100 + doy
  era * 146097 + doe - 719468

end Scheduler

namespace Scheduler

/-- The minute loop visits exactly the multiples `m, m + dur, …` when the
remaining width `60 - m` is an exact multiple of the positive step `dur`. -/
theorem minutesLoop_exact (dur : Int) (hdur : 0 < dur) :
    ∀ (n : Nat) (m : Int), 60 - m = (n : Int) * dur →
      minutesLoop dur m = (List.range n).map (fun i : Nat => m + (i : Int) * dur) := by
  intro n
  induction n with
  | zero =>
    intro m hm
    have hneg : ¬ (0 < dur ∧ m < 60) := by
      simp only [Nat.cast_zero, zero_mul] at hm
      omega
    rw [minutesLoop, dif_neg hneg, List.range_zero, List.map_nil]
  | succ n ih =>
    intro m hm
    have hnd : (0 : Int) ≤ (n : Int) * dur :=
      mul_nonneg (Int.natCast_nonneg n) hdur.le
    have hm60 : m < 60 := by push_cast at hm; nlinarith
    rw [minutesLoop, dif_pos ⟨hdur, hm60⟩,
      ih (m + dur) (by push_cast at hm ⊢; linarith),
      List.range_succ_eq_map, List.map_cons, List.map_map]
    refine congrArg₂ List.cons (by simp) (List.map_congr_left ?_)
    intro i _
    simp only [Function.comp_apply]
    push_cast
    ring

/-- When the positive step `dur` divides 60, the minute loop from 0 visits
exactly the `60 / dur` multiples of `dur` below 60. -/
theorem minutesLoop_dvd_eq (dur : Int) (hdur : 0 < dur) (hdvd : dur ∣ 60) :
    minutesLoop dur 0 =
      (List.range ((60 / dur).toNat)).map (fun i : Nat => (i : Int) * dur) := by
  obtain ⟨c, hc⟩ := hdvd
  have hcdiv : (60 : Int) / dur = c := by
    rw [hc, Int.mul_ediv_cancel_left _ (ne_of_gt hdur)]
  have hc0 : 0 < c := by nlinarith
  have hcast : ((c.toNat : Nat) : Int) = c := Int.toNat_of_nonneg hc0.le
  have h := minutesLoop_exact dur hdur c.toNat 0 (by rw [hcast]; linarith [hc])
  rw [h, hcdiv]
  exact List.map_congr_left fun i _ => by ring

/-- Every generated slot is `slotDuration` minutes wide. -/
theorem timeSlots_end_eq (cfg : CalendarConfig) (date : Int) :
    ∀ sl ∈ timeSlots cfg date, sl.«end» = sl.start + cfg.slotDuration := by
  intro sl hsl
  simp only [timeSlots, List.mem_flatMap, List.mem_map] at hsl
  obtain ⟨hour, -, m, -, rfl⟩ := hsl
  rfl

/-- Flattening a rectangular `H × c` index grid: mapping over
`range (H * c)` equals the double loop over `range H` and `range c`. -/
theorem range_mul_map {β : Type} (H c : Nat) (f : Nat → β) :
    (List.range (H * c)).map f =
      (List.range H).flatMap fun a => (List.range c).map fun i => f (a * c + i) := by
  induction H with
  | zero => simp
  | succ H ih =>
    rw [Nat.succ_mul, List.range_add, List.map_append, ih, List.range_succ,
      List.flatMap_append]
    simp [List.map_map, Function.comp_def]

/-- Closed form for the slot start times when `slotDuration` is positive and
divides 60: the k-th slot starts `k * slotDuration` minutes after
`startHour:00` of the anchor's day. -/
theorem timeSlots_start_map (cfg : CalendarConfig) (date : Int)
    (hdur : 0 < cfg.slotDuration) (hdvd : cfg.slotDuration ∣ 60) :
    (timeSlots cfg date).map TimeSlot.start =
      (List.range ((cfg.endHour - cfg.startHour).toNat *
          ((60 / cfg.slotDuration).toNat))).map
        (fun k : Nat => startOfDay date + cfg.startHour * 60 +
          (k : Int) * cfg.slotDuration) := by
  obtain ⟨c, hc⟩ := hdvd
  have hcdiv : (60 : Int) / cfg.slotDuration = c := by
    rw [hc, Int.mul_ediv_cancel_left _ (ne_of_gt hdur)]
  have hc0 : 0 < c := by nlinarith
  have hcdur : ((c.toNat : Nat) : Int) * cfg.slotDuration = 60 := by
    rw [Int.toNat_of_nonneg hc0.le]; linarith [hc]
  rw [range_mul_map, timeSlots, List.map_flatMap, hourRange, List.flatMap_map]
  apply List.flatMap_congr
  intro a _
  rw [List.map_map, minutesLoop_dvd_eq _ hdur ⟨c, hc⟩, List.map_map]
  apply List.map_congr_left
  intro i _
  simp only [Function.comp_apply, mkSlot, hcdiv]
  push_cast [Int.toNat_of_nonneg hc0.le]
  linear_combination (a : Int) * hc

/-- Slot start times at a given index, for positive `slotDuration`
dividing 60. -/
theorem timeSlots_start_get (cfg : CalendarConfig) (date : Int)
    (hdur : 0 < cfg.slotDuration) (hdvd : cfg.slotDuration ∣ 60) :
    ∀ k (hk : k < (timeSlots cfg date).length),
      ((timeSlots cfg date).get ⟨k, hk⟩).start =
        startOfDay date + cfg.startHour * 60 + (k : Int) * cfg.slotDuration := by
  intro k hk
  have hmap := timeSlots_start_map cfg date hdur hdvd
  have hk' : k < ((timeSlots cfg date).map TimeSlot.start).length := by
    simpa using hk
  have h := List.getElem_of_eq hmap hk'
  simpa [List.getElem_map, List.getElem_range] using h

/-- C3 (amended): for every CalendarConfig whose `slotDuration` is positive
and divides 60, with `endHour > startHour`, and every anchor date, the
generated slot sequence is contiguous (`slots[i].end = slots[i+1].start`),
pairwise non-overlapping, has exactly
`floor((endHour - startHour) * 60 / slotDuration)` slots, and no emitted
slot ends after `endHour:00` of the anchor's calendar day. (When
`slotDuration` does not divide 60 the source truncates nothing and these
properties fail — see the counterexample.) -/
theorem slotGrid_contiguous_count_bounded (cfg : CalendarConfig) (date : Int)
    (hdur : 0 < cfg.slotDuration) (hdvd : cfg.slotDuration ∣ 60)
    (hhours : cfg.startHour < cfg.endHour) :
    ((timeSlots cfg date).length =
      (((cfg.endHour - cfg.startHour) * 60) / cfg.slotDuration).toNat) ∧
    (∀ i (hi1 : i + 1 < (timeSlots cfg date).length),
      ((timeSlots cfg date).get ⟨i, by omega⟩).«end» =
        ((timeSlots cfg date).get ⟨i + 1, hi1⟩).start) ∧
    (∀ i j (hij : i < j) (hj : j < (timeSlots cfg date).length),
      ((timeSlots cfg date).get ⟨i, by omega⟩).«end» ≤
        ((timeSlots cfg date).get ⟨j, hj⟩).start) ∧
    (∀ sl ∈ timeSlots cfg date,
      sl.«end» ≤ startOfDay date + cfg.endHour * 60) := by
  obtain ⟨c, hc⟩ := hdvd
  have hc0 : 0 < c := by nlinarith
  have hlen : (timeSlots cfg date).length =
      (cfg.endHour - cfg.startHour).toNat * ((60 / cfg.slotDuration).toNat) := by
    have h := congrArg List.length (timeSlots_start_map cfg date hdur ⟨c, hc⟩)
    simpa using h
  have hcdiv : (60 : Int) / cfg.slotDuration = c := by
    rw [hc, Int.mul_ediv_cancel_left _ (ne_of_gt hdur)]
  have hH : (((cfg.endHour - cfg.startHour).toNat : Nat) : Int) =
      cfg.endHour - cfg.startHour := Int.toNat_of_nonneg (by omega)
  have hcN : ((c.toNat : Nat) : Int) = c := Int.toNat_of_nonneg hc0.le
  have hlenInt : (((timeSlots cfg date).length : Nat) : Int) =
      (cfg.endHour - cfg.startHour) * c := by
    rw [hlen, hcdiv]
    push_cast
    rw [hH, hcN]
  have hget := timeSlots_start_get cfg date hdur ⟨c, hc⟩
  have hend := timeSlots_end_eq cfg date
  refine ⟨?_, ?_, ?_, ?_⟩
  · have hdivq : ((cfg.endHour - cfg.startHour) * 60) / cfg.slotDuration =
        (cfg.endHour - cfg.startHour) * c := by
      rw [hc, show (cfg.endHour - cfg.startHour) * (cfg.slotDuration * c) =
        cfg.slotDuration * ((cfg.endHour - cfg.startHour) * c) from by ring,
        Int.mul_ediv_cancel_left _ (ne_of_gt hdur)]
    rw [hdivq]
    omega
  · intro i hi1
    have hi : i < (timeSlots cfg date).length := by omega
    rw [hend _ (List.get_mem _ _ _), hget i hi, hget (i + 1) hi1]
    push_cast
    ring
  · intro i j hij hj
    have hi : i < (timeSlots cfg date).length := by omega
    rw [hend _ (List.get_mem _ _ _), hget i hi, hget j hj]
    have hle : ((i : Int) + 1) * cfg.slotDuration ≤ (j : Int) * cfg.slotDuration := by
      have : ((i : Int) + 1) ≤ (j : Int) := by exact_mod_cast hij
      exact mul_le_mul_of_nonneg_right this hdur.le
    nlinarith [hle]
  · intro sl hsl
    obtain ⟨⟨k, hk⟩, rfl⟩ := List.mem_iff_get.mp hsl
    rw [hend _ (List.get_mem _ _ _), hget k hk]
    have hkN : ((k : Nat) : Int) + 1 ≤ (((timeSlots cfg date).length : Nat) : Int) := by
      exact_mod_cast hk
    rw [hlenInt] at hkN
    have hmul : (((k : Nat) : Int) + 1) * cfg.slotDuration ≤
        ((cfg.endHour - cfg.startHour) * c) * cfg.slotDuration :=
      mul_le_mul_of_nonneg_right hkN hdur.le
    nlinarith [hmul, hc]

/-- Concrete instance of `slotGrid_contiguous_count_bounded`: the default
08:00-18:00 / 30-minute configuration yields exactly
`(18 - 8) * 60 / 30 = 20` slots. -/
theorem slotGrid_contiguous_count_bounded_witness :
    (timeSlots DEFAULT_CALENDAR_CONFIG 0).length =
      (((DEFAULT_CALENDAR_CONFIG.endHour - DEFAULT_CALENDAR_CONFIG.startHour) * 60) /
        DEFAULT_CALENDAR_CONFIG.slotDuration).toNat :=
  (slotGrid_contiguous_count_bounded DEFAULT_CALENDAR_CONFIG 0 (by decide)
    ⟨2, by decide⟩ (by decide)).1

/-- C3 counterexample: with the valid configuration
`{startHour := 8, endHour := 10, slotDuration := 45}` (positive duration not
dividing 60) the generator emits 4 slots while the claim demands
`floor(120 / 45) = 2`; slot 1 ends at 570 (09:30) but slot 2 starts at 540
(09:00), so the sequence is neither contiguous nor non-overlapping; and
slot 3 ends at 630 (10:30), past `endHour:00` = 600. -/
theorem slotGrid_counterexample :
    (timeSlots { startHour := 8, endHour := 10, slotDuration := 45 } 0).length = 4 ∧
    ((((10 : Int) - 8) * 60) / 45).toNat = 2 ∧
    ((timeSlots { startHour := 8, endHour := 10, slotDuration := 45 } 0)[1]?.map
        TimeSlot.«end» = some 570) ∧
    ((timeSlots { startHour := 8, endHour := 10, slotDuration := 45 } 0)[2]?.map
        TimeSlot.start = some 540) ∧
    ((timeSlots { startHour := 8, endHour := 10, slotDuration := 45 } 0)[3]?.map
        TimeSlot.«end» = some 630) ∧
    startOfDay 0 + (10 : Int) * 60 = 600 := by
  refine ⟨?_, by decide, ?_, ?_, ?_, by decide⟩ <;>
    simp [timeSlots, hourRange, minutesLoop, mkSlot, formatHHMM, pad2,
      startOfDay, minutesPerDay, List.range_succ]

/-- C1: for every appointment A and slot S, A appears in the day-view
placement result for S iff A is in the input list and
`A.startTime < S.end ∧ A.endTime > S.start` (half-open overlap); in
particular an appointment touching S only at a boundary
(`A.endTime = S.start` or `A.startTime = S.end`) never appears. -/
theorem dayView_placement_iff_overlap (appointments : List Appointment)
    (slot : TimeSlot) (a : Appointment) :
    (a ∈ getAppointmentsForSlot appointments slot ↔
      a ∈ appointments ∧ a.startTime < slot.«end» ∧ slot.start < a.endTime) ∧
    ((a.endTime = slot.start ∨ a.startTime = slot.«end») →
      a ∉ getAppointmentsForSlot appointments slot) := by
  constructor
  · simp [getAppointmentsForSlot, List.mem_filter, and_assoc]
  · rintro (h | h) hmem <;>
      simp [getAppointmentsForSlot, List.mem_filter, h] at hmem

/-- Concrete instance of `dayView_placement_iff_overlap`: an appointment
ending exactly at the slot's start is excluded. -/
theorem dayView_placement_iff_overlap_witness :
    ({ id := "a1", patientId := "p1", doctorId := "d1", type := "checkup",
       startTime := 540, endTime := 600 } : Appointment) ∉
      getAppointmentsForSlot
        [{ id := "a1", patientId := "p1", doctorId := "d1", type := "checkup",
           startTime := 540, endTime := 600 }]
        { start := 600, «end» := 630, label := "10:00" } :=
  (dayView_placement_iff_overlap _ _ _).2 (Or.inl rfl)

/-- The fuel-indexed minute loop never terminates when the step is
non-positive: the loop counter never reaches 60. -/
theorem minutesLoopFuel_none_of_nonpos (dur : Int) (hdur : dur ≤ 0) :
    ∀ (fuel : Nat) (m : Int), m < 60 → minutesLoopFuel dur fuel m = none := by
  intro fuel
  induction fuel with
  | zero => intro m _; rfl
  | succ fuel ih =>
    intro m hm
    simp only [minutesLoopFuel, if_pos hm]
    rw [ih (m + dur) (by omega)]
    rfl

/-- With a positive step the fuel-indexed minute loop agrees with
`minutesLoop` once the fuel exceeds the remaining width: the two
embeddings of the source loop coincide whenever the loop terminates. -/
theorem minutesLoopFuel_eq_of_pos (dur : Int) (hdur : 0 < dur) :
    ∀ (fuel : Nat) (m : Int), (60 - m).toNat < fuel →
      minutesLoopFuel dur fuel m = some (minutesLoop dur m) := by
  intro fuel
  induction fuel with
  | zero => intro m hm; omega
  | succ fuel ih =>
    intro m hm
    by_cases hm60 : m < 60
    · rw [minutesLoopFuel, if_pos hm60, ih (m + dur) (by omega)]
      conv_rhs => rw [minutesLoop, dif_pos ⟨hdur, hm60⟩]
      rfl
    · rw [minutesLoopFuel, if_neg hm60, minutesLoop, dif_neg (by omega)]

/-- With a positive `slotDuration` and fuel above 60 the fuel-indexed
generator returns exactly the `timeSlots` list. -/
theorem timeSlotsFuel_eq_of_pos (cfg : CalendarConfig) (date : Int)
    (hdur : 0 < cfg.slotDuration) (fuel : Nat) (hfuel : 60 < fuel) :
    timeSlotsFuel cfg date fuel = some (timeSlots cfg date) := by
  rw [timeSlotsFuel, timeSlots]
  generalize hourRange cfg.startHour cfg.endHour = hl
  induction hl with
  | nil => rfl
  | cons h0 rest ih =>
    simp [hoursLoopFuel,
      minutesLoopFuel_eq_of_pos cfg.slotDuration hdur fuel 0 (by omega), ih]

/-- Concrete instance of `timeSlotsFuel_eq_of_pos` at the default
configuration. -/
theorem timeSlotsFuel_eq_of_pos_witness :
    timeSlotsFuel DEFAULT_CALENDAR_CONFIG 0 61 =
      some (timeSlots DEFAULT_CALENDAR_CONFIG 0) :=
  timeSlotsFuel_eq_of_pos DEFAULT_CALENDAR_CONFIG 0 (by decide) 61 (by decide)

/-- C2 (code bug): the week grid compares every column's appointments
against slot intervals generated on `weekStartDate` (the first column's
calendar day). With `weekStartDate = 0` (midnight of day 0): the
appointment 09:00-09:30 of the second column's day (timestamps 1980-2010)
starts on that column's calendar day (1440) and half-open-overlaps that
day's 09:00-09:30 slot (`1980 < 1440 + 540 + 30` and `1440 + 540 < 2010`),
yet the rendered cell for (second column, 09:00 row) — which the grid
computes from the row's first-day slot `[540, 570)` — is empty. The same
appointment shape placed on the first column's day does appear in the
first column's 09:00 cell, so only the first column is populated. -/
theorem weekView_later_columns_lose_appointments :
    ((weekDays 0)[1]? = some 1440) ∧
    ((timeSlots DEFAULT_CALENDAR_CONFIG 0)[2]? =
      some { start := 540, «end» := 570, label := "09:00" }) ∧
    (isSameCalendarDay 1980 1440 = true) ∧
    ((1980 : Int) < 1440 + 540 + 30 ∧ 1440 + 540 < (2010 : Int)) ∧
    (weekCell
        [{ id := "a2", patientId := "p2", doctorId := "d1", type := "checkup",
           startTime := 1980, endTime := 2010 }]
        1440 { start := 540, «end» := 570, label := "09:00" } = []) ∧
    (weekCell
        [{ id := "a1", patientId := "p1", doctorId := "d1", type := "checkup",
           startTime := 540, endTime := 570 }]
        0 { start := 540, «end» := 570, label := "09:00" } =
      [{ id := "a1", patientId := "p1", doctorId := "d1", type := "checkup",
         startTime := 540, endTime := 570 }]) := by
  refine ⟨by decide, ?_, by decide, by decide, by decide, by decide⟩
  simp [timeSlots, DEFAULT_CALENDAR_CONFIG, hourRange, minutesLoop, mkSlot,
    formatHHMM, pad2, startOfDay, minutesPerDay, List.range_succ]
  decide

/-- C4 counterexample: the malformed appointment [620, 610) (endTime before
startTime) passes the raw overlap test against slot [600, 630) and is
returned by the day-view placement — there is no defensive filter. -/
theorem malformed_not_filtered_counterexample :
    getAppointmentsForSlot
      [{ id := "m1", patientId := "p1", doctorId := "d1", type := "checkup",
         startTime := 620, endTime := 610 }]
      { start := 600, «end» := 630, label := "10:00" } =
    [{ id := "m1", patientId := "p1", doctorId := "d1", type := "checkup",
       startTime := 620, endTime := 610 }] ∧
    (610 : Int) ≤ 620 := by decide

/-- C4 (amended): malformed appointments (endTime ≤ startTime) receive no
special treatment: in both day and week mode they appear in a cell exactly
when they pass the same filter as any appointment (the raw half-open
overlap test, plus day equality in week mode) — so a malformed appointment
strictly inside a slot does appear — and no failure occurs (placement is a
total filter). -/
theorem malformed_treated_like_any (apts : List Appointment) (a : Appointment)
    (hmal : a.endTime ≤ a.startTime) :
    (∀ slot : TimeSlot, a ∈ getAppointmentsForSlot apts slot ↔
      a ∈ apts ∧ a.startTime < slot.«end» ∧ slot.start < a.endTime) ∧
    (∀ date slotStart : Int,
      a ∈ getAppointmentsForDayAndSlot apts date slotStart ↔
        a ∈ apts ∧ isSameCalendarDay a.startTime date = true ∧
          a.startTime < slotStart + DEFAULT_CALENDAR_CONFIG.slotDuration ∧
          slotStart < a.endTime) := by
  constructor
  · intro slot
    simp [getAppointmentsForSlot, List.mem_filter, and_assoc]
  · intro date slotStart
    simp [getAppointmentsForDayAndSlot, List.mem_filter, and_assoc]

/-- Concrete instance of `malformed_treated_like_any`: the malformed
appointment [620, 610) appears in the slot [600, 630) that contains it. -/
theorem malformed_treated_like_any_witness :
    ({ id := "m1", patientId := "p1", doctorId := "d1", type := "checkup",
       startTime := 620, endTime := 610 } : Appointment) ∈
      getAppointmentsForSlot
        [{ id := "m1", patientId := "p1", doctorId := "d1", type := "checkup",
           startTime := 620, endTime := 610 }]
        { start := 600, «end» := 630, label := "10:00" } :=
  ((malformed_treated_like_any _ _ (by decide)).1
    { start := 600, «end» := 630, label := "10:00" }).mpr (by decide)

/-- C8 (corrected): a non-positive `slotDuration` is not rejected — the
source has no configuration validation and no InvalidConfig error — and
slot generation fails to terminate instead: whenever the hour loop runs at
all (`startHour < endHour`), no iteration bound (fuel) ever completes the
minute loop. -/
theorem nonpos_duration_diverges (cfg : CalendarConfig) (date : Int)
    (hdur : cfg.slotDuration ≤ 0) (hhours : cfg.startHour < cfg.endHour) :
    ∀ fuel : Nat, timeSlotsFuel cfg date fuel = none := by
  intro fuel
  rw [timeSlotsFuel]
  obtain ⟨h0, rest, heq⟩ :
      ∃ h0 rest, hourRange cfg.startHour cfg.endHour = h0 :: rest := by
    cases hhr : hourRange cfg.startHour cfg.endHour with
    | nil =>
      exfalso
      have hlen := congrArg List.length hhr
      simp [hourRange] at hlen
      omega
    | cons h0 rest => exact ⟨h0, rest, rfl⟩
  rw [heq]
  simp [hoursLoopFuel,
    minutesLoopFuel_none_of_nonpos cfg.slotDuration hdur fuel 0 (by norm_num)]

/-- Concrete instance of `nonpos_duration_diverges`: with slotDuration 0 the
generator produces nothing within 5 iterations. -/
theorem nonpos_duration_diverges_witness :
    timeSlotsFuel { startHour := 8, endHour := 18, slotDuration := 0 } 0 5 =
      none :=
  nonpos_duration_diverges
    { startHour := 8, endHour := 18, slotDuration := 0 } 0 (by decide)
    (by decide) 5

/-- C8 counterexample: with the concrete configuration
`{startHour := 8, endHour := 18, slotDuration := 0}` slot generation
signals no error and produces no slot list even after 1000 iterations of
the minute loop (the loop counter never advances). -/
theorem nonpos_duration_no_error_counterexample :
    timeSlotsFuel { startHour := 8, endHour := 18, slotDuration := 0 } 0 1000 =
      none := by
  have h := minutesLoopFuel_none_of_nonpos 0 (by norm_num) 1000 0 (by norm_num)
  simp [timeSlotsFuel, hourRange, List.range_succ, hoursLoopFuel, h]

/-- C5: in week mode the derived query window starts at the Monday of the
Monday-start (ISO) week containing the anchor date — a Monday lying at
most 6 days before the anchor — and ends 6 days later; concretely, anchor
2024-01-03 (a Wednesday) yields weekStart 2024-01-01 (a Monday) and the
window [2024-01-01, 2024-01-07]. -/
theorem weekWindow_monday_anchored :
    (∀ d : Int,
      jsDayOfWeek (startOfWeekMon d) = 1 ∧
      startOfWeekMon d ≤ d ∧ d < startOfWeekMon d + 7 ∧
      weekWindow d = (startOfWeekMon d, startOfWeekMon d + 6)) ∧
    jsDayOfWeek (daysFromCivil 2024 1 3) = 3 ∧
    weekWindow (daysFromCivil 2024 1 3) =
      (daysFromCivil 2024 1 1, daysFromCivil 2024 1 7) := by
  refine ⟨fun d => ?_, by decide, by decide⟩
  unfold weekWindow startOfWeekMon jsDayOfWeek
  exact ⟨by omega, by omega, by omega, rfl⟩

/-- C6: the appointment list exposed to the views is the service's list
sorted ascending by start time — pairwise ordered and a permutation of the
input — and the sort is stable: two appointments sharing a start time keep
their relative input order, so the order is deterministic even on ties. -/
theorem appointments_sorted_stable (l : List Appointment) :
    (sortAppointments l).Pairwise (fun a b => a.startTime ≤ b.startTime) ∧
    List.Perm (sortAppointments l) l ∧
    (∀ a b : Appointment, a.startTime = b.startTime →
      List.Sublist [a, b] l → List.Sublist [a, b] (sortAppointments l)) := by
  have trans : ∀ a b c : Appointment,
      decide (a.startTime ≤ b.startTime) → decide (b.startTime ≤ c.startTime) →
        decide (a.startTime ≤ c.startTime) := by
    intro a b c hab hbc
    simp only [decide_eq_true_eq] at *
    omega
  have total : ∀ a b : Appointment,
      (decide (a.startTime ≤ b.startTime) ||
        decide (b.startTime ≤ a.startTime)) = true := by
    intro a b
    simp only [Bool.or_eq_true, decide_eq_true_eq]
    omega
  refine ⟨?_, List.mergeSort_perm l _, ?_⟩
  · have h := List.sorted_mergeSort trans total l
    exact h.imp (by intro a b hab; simpa using hab)
  · intro a b hab hsub
    exact List.pair_sublist_mergeSort trans total (by simp [hab]) hsub

/-- Concrete instance of `appointments_sorted_stable`: two appointments with
the same start time keep their input order in the sorted output. -/
theorem appointments_sorted_stable_witness :
    List.Sublist
      [({ id := "a1", patientId := "p1", doctorId := "d1", type := "checkup",
          startTime := 540, endTime := 570 } : Appointment),
       { id := "a2", patientId := "p2", doctorId := "d1", type := "surgery",
          startTime := 540, endTime := 600 }]
      (sortAppointments
        [{ id := "a1", patientId := "p1", doctorId := "d1", type := "checkup",
           startTime := 540, endTime := 570 },
         { id := "a2", patientId := "p2", doctorId := "d1", type := "surgery",
           startTime := 540, endTime := 600 }]) :=
  (appointments_sorted_stable _).2.2 _ _ rfl (List.Sublist.refl _)

/-- C7: after the effect for one completed query runs — whether the read
succeeded or threw — the exposed loading flag is false, and a throwing
read is turned into the error field rather than propagating a fault. -/
theorem query_completion_clears_loading (st : HookState) :
    (∀ fetched, (runQueryEffect fetched st).loading = false) ∧
    (∀ e, (runQueryEffect (Except.error e) st).error = some e) := by
  constructor
  · intro fetched; cases fetched <;> rfl
  · intro e; rfl

/-- C10: when the query throws, the error branch performs no write to the
appointments state: the previously exposed appointment list is retained
unchanged (the spec's cleared-vs-retained choice resolves to retained),
while the error field records the failure. -/
theorem error_branch_retains_appointments (st : HookState) (e : String) :
    (runQueryEffect (Except.error e) st).appointments = st.appointments ∧
    (runQueryEffect (Except.error e) st).error = some e :=
  ⟨rfl, rfl⟩

/-- C9: selection changes are processed synchronously in order: the state
after a sequence of selection changes is the latest selection's effect
applied last (an older selection's query result is never applied after a
newer selection has been set), and whenever the latest selection's query
succeeds, the final exposed state is determined by that query alone,
independent of the entire earlier selection history. -/
theorem no_stale_query_results
    (byDate : String → Int → Except String (List Appointment))
    (byRange : String → Int → Int → Except String (List Appointment))
    (st : HookState) (sels : List Selection) (sel : Selection) :
    runSelections byDate byRange st (sels ++ [sel]) =
      applySelection byDate byRange (runSelections byDate byRange st sels) sel ∧
    (∀ data, selectQuery byDate byRange sel = Except.ok data →
      runSelections byDate byRange st (sels ++ [sel]) =
        { appointments := sortAppointments data, loading := false,
          error := none }) := by
  constructor
  · simp [runSelections, List.foldl_append]
  · intro data h
    simp [runSelections, List.foldl_append, applySelection, runQueryEffect, h]

/-- Concrete instance of `no_stale_query_results`: after a failing doctor-A
selection followed by a succeeding doctor-B selection, the exposed state is
exactly doctor-B's query result. -/
theorem no_stale_query_results_witness :
    runSelections (fun _ _ => Except.ok []) (fun _ _ _ => Except.error "boom")
      { appointments := [], loading := true, error := none }
      ([{ doctorId := "A", date := 0, startDate := some 0, endDate := some 6 }] ++
        [{ doctorId := "B", date := 1, startDate := none, endDate := none }]) =
      { appointments := sortAppointments [], loading := false, error := none } :=
  (no_stale_query_results (fun _ _ => Except.ok [])
    (fun _ _ _ => Except.error "boom")
    { appointments := [], loading := true, error := none }
    [{ doctorId := "A", date := 0, startDate := some 0, endDate := some 6 }]
    { doctorId := "B", date := 1, startDate := none, endDate := none }).2 [] rfl

end Scheduler
